import Mathlib

/-!
Verification of the client-side real-time chat pipeline: the SSE stream
client (`services/sseService.ts`), the message assembler and conversation
orchestrator inside `handleSendMessage`, and the global state store
(`frontend/store/index.ts`).  The JavaScript code is embedded shallowly:
zustand's `set` merges are explicit record updates, the stream transport is
a list of decoded read chunks, `JSON.parse` inside a try/catch is an
abstract `String → Option SSEMessage` parameter, and callback invocations
are reified as a list of events folded over the store state.  JS numbers
that the pipeline only copies (never computes with) are modelled as `Int`.
-/

namespace AdvisoryChat

/-! ## Wire-level data model (`services/sseService.ts`) -/

/-- The `type` tag of a server-sent event payload. -/
inductive SSEType
  | start
  | chunk
  | complete
  | error
deriving DecidableEq, Repr

/-- The `metadata` object carried by a `complete` event. -/
structure SSEMetadata where
  response_time : Int
  total_tokens : Int
  cost : Int
  model : String
  chunks_sent : Int
deriving DecidableEq, Repr

/-- The `confidence` object carried by a `complete` event. -/
structure SSEConfidence where
  level : String
  percentage : Int
  explanation : String
deriving DecidableEq, Repr

/-- One parsed stream event (interface `SSEMessage` in `sseService.ts`);
absent optional fields are `none`. -/
structure SSEMessage where
  type : SSEType
  content : Option String := none
  model : Option String := none
  response_id : Option String := none
  workspace_id : Option String := none
  conversation_id : Option String := none
  confidence : Option SSEConfidence := none
  metadata : Option SSEMetadata := none
  error : Option String := none
deriving DecidableEq, Repr

/-! ## Store-level data model (`frontend/types/index.ts`, service types) -/

/-- A transcript message.  Optional booleans of the TS interface are
modelled with `false` for an absent field (their only use is truthiness
tests). -/
structure Message where
  id : String
  sender : String
  content : String
  timestamp : String
  isStreaming : Bool := false
  error : Bool := false
  metadata : Option SSEMetadata := none
  confidence : Option SSEConfidence := none
  responseId : Option String := none
deriving DecidableEq, Repr

/-- A workspace, carried opaquely by the store (never mutated by the
stream pipeline). -/
structure Workspace where
  id : String
  name : String
deriving DecidableEq, Repr

/-- A conversation as returned by `conversationService`. -/
structure Conversation where
  id : String
  title : String
  last_message_at : Option String := none
  created_at : String := ""
deriving DecidableEq, Repr

/-- The zustand store snapshot (`StoreState` in `frontend/store/index.ts`).
The `user` object is carried opaquely as a string identifier. -/
structure StoreState where
  theme : String
  isAuthenticated : Bool
  user : Option String
  isProcessing : Bool
  messages : List Message
  currentConversationId : Option String
  currentWorkspaceId : Option String
  workspaces : List Workspace
  conversations : List Conversation
  isLoadingWorkspaces : Bool := false
  isLoadingConversations : Bool := false
deriving DecidableEq, Repr

/-! ## JS string primitives

The stream client uses `chunk.split('\n\n')`, `line.startsWith('data: ')`
and `line.slice(6)`.  They are embedded as executable char-list functions
so concrete runs reduce in the kernel. -/

/-- JS `s.split('\n\n')` on the char list: split on non-overlapping
occurrences of the two-character frame delimiter, left to right. -/
def splitFrames : List Char → List (List Char)
  | [] => [[]]
  | '\n' :: '\n' :: rest => [] :: splitFrames rest
  | c :: rest =>
    match splitFrames rest with
    | [] => [[c]]
    | piece :: pieces => (c :: piece) :: pieces

/-- JS `chunk.split('\n\n')` lifted to strings. -/
def jsSplitOnBlankLine (s : String) : List String :=
  (splitFrames s.data).map (fun cs => String.mk cs)

/-- JS `s.startsWith(p)`. -/
def jsStartsWith (p s : String) : Bool :=
  p.data.isPrefixOf s.data

/-- JS `s.slice(n)` (drop the first `n` characters). -/
def jsDrop (n : Nat) (s : String) : String :=
  String.mk (s.data.drop n)

/-- JS `s.slice(0, n)` (take the first `n` characters). -/
def jsTake (n : Nat) (s : String) : String :=
  String.mk (s.data.take n)

/-! ## Stream client (`SSEConnection.connectWithFetch`) -/

/-- One callback invocation made by the stream client:
`onMessage`, `onError`, or `onComplete`. -/
inductive CbEvent
  | onMessage (m : SSEMessage)
  | onError (message : String)
  | onComplete
deriving DecidableEq, Repr

/-- The inner `for (const line of lines)` loop of `connectWithFetch`
(lines 111-137 of `sseService.ts`): every line prefixed with `data: ` has
its remainder parsed; a parse failure is caught and skipped; a parsed
message is delivered to `onMessage`, and an `error` or `complete` message
additionally fires `onError`/`onComplete` and breaks out of the loop
(`close()` is a no-op on the fetch path since `eventSource` is null).
Returns the callback invocations and whether the loop broke early. -/
def processLines (parse : String → Option SSEMessage) :
    List String → List CbEvent × Bool
  | [] => ([], false)
  | line :: rest =>
    if jsStartsWith "data: " line then
      match parse (jsDrop 6 line) with
      | none => processLines parse rest
      | some m =>
        if m.type = SSEType.error then
          ([CbEvent.onMessage m, CbEvent.onError (m.error.getD "Unknown error")], true)
        else if m.type = SSEType.complete then
          ([CbEvent.onMessage m, CbEvent.onComplete], true)
        else
          match processLines parse rest with
          | (evs, broke) => (CbEvent.onMessage m :: evs, broke)
    else processLines parse rest

/-- Processing of one decoded read chunk: split on the frame delimiter and
run the line loop. -/
def chunkEvents (parse : String → Option SSEMessage) (chunk : String) :
    List CbEvent × Bool :=
  processLines parse (jsSplitOnBlankLine chunk)

/-- The `while (true)` read loop over the successive decoded read chunks.
The `break` inside the line loop does not leave this loop, so every read
chunk is processed. -/
def streamEvents (parse : String → Option SSEMessage) : List String → List CbEvent
  | [] => []
  | chunk :: rest => (chunkEvents parse chunk).1 ++ streamEvents parse rest

/-- The transport behind one `connect` call: either the POST fails with a
non-2xx status, or it yields a body read as a list of decoded chunks after
which the reader either reports `done` or the read itself fails. -/
inductive Transport
  | httpError (status : Nat)
  | stream (chunks : List String) (readFails : Bool)
deriving DecidableEq, Repr

/-- `SSEConnection.connectWithFetch`: the callback invocations in order,
and whether the promise rejected (an HTTP error or a failed read is caught,
forwarded to `onError`, and rethrown; reaching `done` fires `onComplete`
and returns normally). -/
def connectWithFetch (parse : String → Option SSEMessage) :
    Transport → List CbEvent × Bool
  | Transport.httpError status =>
    ([CbEvent.onError ("HTTP error! status: " ++ toString status)], true)
  | Transport.stream chunks readFails =>
    if readFails then
      (streamEvents parse chunks ++ [CbEvent.onError "network read failed"], true)
    else
      (streamEvents parse chunks ++ [CbEvent.onComplete], false)

/-! ## Store actions (`frontend/store/index.ts`) -/

/-- The persisted subset of the store (`partialize`, lines 508-515). -/
structure PersistedState where
  theme : String
  isAuthenticated : Bool
  user : Option String
  workspaces : List Workspace
  currentWorkspaceId : Option String
deriving DecidableEq, Repr

/-- `partialize`: the slice of the snapshot written to durable storage. -/
def partialize (s : StoreState) : PersistedState :=
  { theme := s.theme
    isAuthenticated := s.isAuthenticated
    user := s.user
    workspaces := s.workspaces
    currentWorkspaceId := s.currentWorkspaceId }

/-- `logout` (lines 129-152): the single `set` in the `finally` block.
`apiFails` records whether the server-side `authServiceLogout` call threw;
the `finally` block runs either way.  Storage clearing and the page reload
are outside the snapshot. -/
def logout (_apiFails : Bool) (s : StoreState) : StoreState :=
  { s with
    theme := s.theme
    isAuthenticated := false
    user := none
    isProcessing := false
    messages := []
    workspaces := []
    conversations := []
    currentConversationId := none
    currentWorkspaceId := none }

/-! ## The send-message turn (`handleSendMessage`, lines 283-472)

The turn is driven by the callback invocations of the stream client.  The
two closure variables `aiContent` and `assistantMessageAdded` of
`handleSendMessage` are threaded explicitly. -/

/-- The closure state of one turn: `aiContent` and
`assistantMessageAdded`. -/
structure TurnClosure where
  aiContent : String
  assistantMessageAdded : Bool
deriving DecidableEq, Repr

/-- An external call issued by the turn (network requests and toasts),
recorded in order. -/
inductive Effect
  | createConversation (title : String) (workspaceId : Option String)
  | fetchConversations (workspaceId : Option String)
  | connectTo (question : String) (conversationId workspaceId : Option String)
  | toastError (message : String)
deriving DecidableEq, Repr

/-- The user-facing failure notice substituted for a streamed message's
content by the `onError` handler (line 423). -/
def errorNotice : String :=
  "Sorry, I encountered an error processing your request. Please try again."

/-- The assistant message created on the first chunk (lines 347-353). -/
def mkAssistantMessage (aiMessageId ts : String) : Message :=
  { id := aiMessageId
    sender := "assistant"
    content := ""
    timestamp := ts
    isStreaming := true }

/-- The user message appended on submit (lines 311-316). -/
def userMessageObj (userMessageId content ts : String) : Message :=
  { id := userMessageId
    sender := "user"
    content := content
    timestamp := ts }

/-- The `sseConnection.onMessage` handler (lines 333-408), one invocation:
`currentMessages` is read once at entry; on a first chunk the assistant
message is appended, but the subsequent `findIndex` runs on the stale
`currentMessages`; a `complete` event finalizes the message found in the
fresh list and always triggers a conversation refresh; `error`-typed
messages fall through with no handling. -/
def applyOnMessage (aiMessageId : String) (workspaceId : Option String)
    (ts : String) (m : SSEMessage) (s : StoreState) (c : TurnClosure) :
    StoreState × TurnClosure × List Effect :=
  let currentMessages := s.messages
  match m.type with
  | SSEType.start =>
    match m.conversation_id with
    | some cid => ({ s with currentConversationId := some cid }, c, [])
    | none => (s, c, [])
  | SSEType.chunk =>
    let (s1, c1) :=
      if c.assistantMessageAdded then (s, c)
      else
        ({ s with messages := currentMessages ++ [mkAssistantMessage aiMessageId ts] },
         { c with assistantMessageAdded := true })
    match currentMessages.findIdx? (fun mm => mm.id == aiMessageId) with
    | none => (s1, c1, [])
    | some _ =>
      let aiContent := c1.aiContent ++ m.content.getD ""
      let c2 := { c1 with aiContent := aiContent }
      let updatedMessages := s1.messages
      match updatedMessages.findIdx? (fun mm => mm.id == aiMessageId) with
      | none => (s1, c2, [])
      | some i =>
        ({ s1 with
            messages := updatedMessages.set i
              { updatedMessages.getD i (mkAssistantMessage aiMessageId ts) with
                content := aiContent
                isStreaming := true } },
         c2, [])
  | SSEType.complete =>
    let updatedMessages := s.messages
    match updatedMessages.findIdx? (fun mm => mm.id == aiMessageId) with
    | none => (s, c, [Effect.fetchConversations workspaceId])
    | some i =>
      ({ s with
          messages := updatedMessages.set i
            { updatedMessages.getD i (mkAssistantMessage aiMessageId ts) with
              content := c.aiContent
              isStreaming := false
              metadata := m.metadata
              confidence := m.confidence
              responseId := m.response_id }
          isProcessing := false },
       c, [Effect.fetchConversations workspaceId])
  | SSEType.error => (s, c, [])

/-- The `sseConnection.onError` handler (lines 411-441): when the
assistant message exists it is overwritten with the failure notice; the
toast fires on every path. -/
def applyOnError (aiMessageId : String) (errMessage : String)
    (s : StoreState) (c : TurnClosure) : StoreState × List Effect :=
  if c.assistantMessageAdded then
    let currentMessages := s.messages
    match currentMessages.findIdx? (fun mm => mm.id == aiMessageId) with
    | some i =>
      ({ s with
          messages := currentMessages.set i
            { currentMessages.getD i (mkAssistantMessage aiMessageId "") with
              content := errorNotice
              isStreaming := false
              error := true }
          isProcessing := false },
       [Effect.toastError errMessage])
    | none => (s, [Effect.toastError errMessage])
  else
    ({ s with isProcessing := false }, [Effect.toastError errMessage])

/-- The `sseConnection.onComplete` handler (lines 444-446). -/
def applyOnComplete (s : StoreState) : StoreState :=
  { s with isProcessing := false }

/-- Dispatch of one callback invocation to its registered handler,
accumulating effects. -/
def applyCbEvent (aiMessageId : String) (workspaceId : Option String)
    (ts : String) (acc : StoreState × TurnClosure × List Effect)
    (e : CbEvent) : StoreState × TurnClosure × List Effect :=
  match e with
  | CbEvent.onMessage m =>
    let r := applyOnMessage aiMessageId workspaceId ts m acc.1 acc.2.1
    (r.1, r.2.1, acc.2.2 ++ r.2.2)
  | CbEvent.onError errMessage =>
    let r := applyOnError aiMessageId errMessage acc.1 acc.2.1
    (r.1, acc.2.1, acc.2.2 ++ r.2)
  | CbEvent.onComplete => (applyOnComplete acc.1, acc.2.1, acc.2.2)

/-- Run the ordered callback invocations of one connection over the store,
starting from an empty `aiContent` and `assistantMessageAdded = false`. -/
def runCbEvents (aiMessageId : String) (workspaceId : Option String)
    (ts : String) (s : StoreState) (cbs : List CbEvent) :
    StoreState × TurnClosure × List Effect :=
  cbs.foldl (applyCbEvent aiMessageId workspaceId ts)
    (s, { aiContent := "", assistantMessageAdded := false }, [])

/-- The generated identifiers and timestamp of one turn
(`crypto.randomUUID()` and `new Date().toISOString()`). -/
structure TurnIds where
  userMessageId : String
  aiMessageId : String
  timestamp : String

/-- The conversation auto-creation policy (lines 292-308): attempted only
when no conversation id is active and the transcript is empty; the title is
the question truncated to 50 characters with an ellipsis marker; a
successful creation adopts the new id and refreshes the conversation list;
a failed creation is swallowed.  Returns the turn's conversation id and the
effects issued. -/
def creationStep (userMessage : String) (convCreate : Option Conversation)
    (s0 : StoreState) : Option String × List Effect :=
  if s0.currentConversationId.isNone ∧ s0.messages.isEmpty then
    let title :=
      jsTake 50 userMessage ++ (if 50 < userMessage.data.length then "..." else "")
    match convCreate with
    | some conv =>
      (some conv.id,
       [Effect.createConversation title s0.currentWorkspaceId,
        Effect.fetchConversations s0.currentWorkspaceId])
    | none =>
      (s0.currentConversationId, [Effect.createConversation title s0.currentWorkspaceId])
  else (s0.currentConversationId, [])

/-- The connection phase of `handleSendMessage` (lines 328-471): process
the delivered callbacks from the mid-turn state `s2`, then run the catch
handler when the connect promise rejected (`threw`): it removes the
assistant message when one was added, and clears the processing flag. -/
def runTurn (ids : TurnIds) (workspaceId : Option String) (s2 : StoreState)
    (cbs : List CbEvent) (threw : Bool) (effs2 : List Effect) :
    StoreState × List Effect :=
  let r := runCbEvents ids.aiMessageId workspaceId ids.timestamp s2 cbs
  if threw then
    if r.2.1.assistantMessageAdded then
      ({ r.1 with
          messages := r.1.messages.filter (fun m => m.id != ids.aiMessageId)
          isProcessing := false },
       effs2 ++ r.2.2 ++ [Effect.toastError "Failed to send message"])
    else
      ({ r.1 with isProcessing := false },
       effs2 ++ r.2.2 ++ [Effect.toastError "Failed to send message"])
  else (r.1, effs2 ++ r.2.2)

/-- `handleSendMessage` (lines 283-472).  `convCreate` is the outcome of
the `createConversation` RPC when the turn attempts one (`some conv` on
success, `none` when it throws); `parse` and `t` determine the stream.
Returns the final snapshot and the ordered external calls. -/
def handleSendMessage (userMessage : String) (ids : TurnIds)
    (convCreate : Option Conversation)
    (parse : String → Option SSEMessage) (t : Transport)
    (s0 : StoreState) : StoreState × List Effect :=
  if s0.isProcessing then (s0, [])
  else
    let creation := creationStep userMessage convCreate s0
    let s2 := { s0 with
      currentConversationId := creation.1
      messages := s0.messages ++ [userMessageObj ids.userMessageId userMessage ids.timestamp]
      isProcessing := true }
    let conn := connectWithFetch parse t
    runTurn ids s0.currentWorkspaceId s2 conn.1 conn.2
      (creation.2 ++ [Effect.connectTo userMessage creation.1 s0.currentWorkspaceId])

/-! ## Concrete fixtures for counterexamples and witnesses -/

/-- A concrete frame parser standing for `JSON.parse` plus the shape of
`SSEMessage`: five well-formed payloads, everything else malformed. -/
def demoParse : String → Option SSEMessage := fun j =>
  if j = "S" then some { type := SSEType.start, model := some "m1" }
  else if j = "A" then some { type := SSEType.chunk, content := some "Yes, " }
  else if j = "B" then some { type := SSEType.chunk, content := some "with caveats." }
  else if j = "K" then some { type := SSEType.complete, conversation_id := some "conv-42" }
  else if j = "E" then some { type := SSEType.error, error := some "boom" }
  else none

/-- A store snapshot with an active conversation and an empty transcript. -/
def baseState : StoreState :=
  { theme := "system"
    isAuthenticated := true
    user := some "u1"
    isProcessing := false
    messages := []
    currentConversationId := some "conv-1"
    currentWorkspaceId := none
    workspaces := []
    conversations := [] }

/-- Fixed identifiers for one concrete turn. -/
def demoIds : TurnIds :=
  { userMessageId := "user-1", aiMessageId := "ai-1", timestamp := "t0" }

/-- A classifier for callback events that deliver a `chunk`-typed message. -/
def isChunkEvent : CbEvent → Bool
  | CbEvent.onMessage m => m.type == SSEType.chunk
  | _ => false

/-! ## Helper lemmas about the transcript list -/

theorem findIdx?_fresh (aiId : String) (l : List Message)
    (h : ∀ m ∈ l, m.id ≠ aiId) :
    l.findIdx? (fun mm => mm.id == aiId) = none := by
  rw [List.findIdx?_eq_none_iff]
  intro x hx
  simpa using h x hx

theorem findIdx?_last (aiId : String) (l : List Message) (msg : Message)
    (h : ∀ m ∈ l, m.id ≠ aiId) (hm : msg.id = aiId) :
    (l ++ [msg]).findIdx? (fun mm => mm.id == aiId) = some l.length := by
  rw [List.findIdx?_append, findIdx?_fresh aiId l h]
  simp [List.findIdx?_cons, hm]

theorem set_last {α : Type _} (l : List α) (a b : α) :
    (l ++ [a]).set l.length b = l ++ [b] := by
  rw [List.set_append_right _ _ (Nat.le_refl _)]
  simp

theorem getD_last {α : Type _} (l : List α) (a d : α) :
    (l ++ [a]).getD l.length d = a := by
  simp [List.getD_eq_getElem?_getD, List.getElem?_append_right (Nat.le_refl _)]

/-! ## Handler characterizations

Each lemma evaluates one registered handler on one class of inputs,
following the branch structure of the source. -/

theorem applyOnMessage_start_frame (aiId : String) (wsId : Option String)
    (ts : String) (m : SSEMessage) (hm : m.type = SSEType.start)
    (s : StoreState) (c : TurnClosure) :
    (applyOnMessage aiId wsId ts m s c).1.messages = s.messages
    ∧ (applyOnMessage aiId wsId ts m s c).2.1 = c := by
  cases hcid : m.conversation_id <;> simp [applyOnMessage, hm, hcid]

theorem applyOnMessage_error_msg (aiId : String) (wsId : Option String)
    (ts : String) (m : SSEMessage) (hm : m.type = SSEType.error)
    (s : StoreState) (c : TurnClosure) :
    applyOnMessage aiId wsId ts m s c = (s, c, []) := by
  simp [applyOnMessage, hm]

theorem applyOnMessage_chunk_fresh (aiId : String) (wsId : Option String)
    (ts : String) (m : SSEMessage) (hm : m.type = SSEType.chunk)
    (s : StoreState) (c : TurnClosure) (hc : c.assistantMessageAdded = false)
    (hfresh : s.messages.findIdx? (fun mm => mm.id == aiId) = none) :
    applyOnMessage aiId wsId ts m s c
      = ({ s with messages := s.messages ++ [mkAssistantMessage aiId ts] },
         { c with assistantMessageAdded := true }, []) := by
  simp [applyOnMessage, hm, hc, hfresh]

theorem applyOnMessage_chunk_present (aiId : String) (wsId : Option String)
    (ts : String) (m : SSEMessage) (hm : m.type = SSEType.chunk)
    (s : StoreState) (c : TurnClosure) (hc : c.assistantMessageAdded = true)
    (base : List Message) (msg : Message) (hmsg : s.messages = base ++ [msg])
    (hfreshb : ∀ x ∈ base, x.id ≠ aiId) (hid : msg.id = aiId) :
    applyOnMessage aiId wsId ts m s c
      = ({ s with
            messages := base ++
              [{ msg with
                  content := c.aiContent ++ m.content.getD ""
                  isStreaming := true }] },
         { c with aiContent := c.aiContent ++ m.content.getD "" }, []) := by
  have hfind : s.messages.findIdx? (fun mm => mm.id == aiId) = some base.length := by
    rw [hmsg]
    exact findIdx?_last aiId base msg hfreshb hid
  simp only [applyOnMessage, hm, hc, if_true, hfind]
  rw [hmsg, getD_last, set_last]

theorem applyOnMessage_complete_present (aiId : String) (wsId : Option String)
    (ts : String) (m : SSEMessage) (hm : m.type = SSEType.complete)
    (s : StoreState) (c : TurnClosure)
    (base : List Message) (msg : Message) (hmsg : s.messages = base ++ [msg])
    (hfreshb : ∀ x ∈ base, x.id ≠ aiId) (hid : msg.id = aiId) :
    applyOnMessage aiId wsId ts m s c
      = ({ s with
            messages := base ++
              [{ msg with
                  content := c.aiContent
                  isStreaming := false
                  metadata := m.metadata
                  confidence := m.confidence
                  responseId := m.response_id }]
            isProcessing := false },
         c, [Effect.fetchConversations wsId]) := by
  have hfind : s.messages.findIdx? (fun mm => mm.id == aiId) = some base.length := by
    rw [hmsg]
    exact findIdx?_last aiId base msg hfreshb hid
  simp only [applyOnMessage, hm, hfind]
  rw [hmsg, getD_last, set_last]

theorem applyOnMessage_complete_missing (aiId : String) (wsId : Option String)
    (ts : String) (m : SSEMessage) (hm : m.type = SSEType.complete)
    (s : StoreState) (c : TurnClosure)
    (hfresh : s.messages.findIdx? (fun mm => mm.id == aiId) = none) :
    applyOnMessage aiId wsId ts m s c = (s, c, [Effect.fetchConversations wsId]) := by
  simp [applyOnMessage, hm, hfresh]

theorem applyOnError_added (aiId err : String) (s : StoreState) (c : TurnClosure)
    (hc : c.assistantMessageAdded = true)
    (base : List Message) (msg : Message) (hmsg : s.messages = base ++ [msg])
    (hfreshb : ∀ x ∈ base, x.id ≠ aiId) (hid : msg.id = aiId) :
    applyOnError aiId err s c
      = ({ s with
            messages := base ++
              [{ msg with
                  content := errorNotice
                  isStreaming := false
                  error := true }]
            isProcessing := false },
         [Effect.toastError err]) := by
  have hfind : s.messages.findIdx? (fun mm => mm.id == aiId) = some base.length := by
    rw [hmsg]
    exact findIdx?_last aiId base msg hfreshb hid
  simp only [applyOnError, hc, if_true, hfind]
  rw [hmsg, getD_last, set_last]

theorem applyOnError_not_added (aiId err : String) (s : StoreState)
    (c : TurnClosure) (hc : c.assistantMessageAdded = false) :
    applyOnError aiId err s c
      = ({ s with isProcessing := false }, [Effect.toastError err]) := by
  simp [applyOnError, hc]

/-! ## The per-turn transcript invariant

During one turn's callback processing the transcript is the submit-time
base list, optionally followed by the single assistant message of the
turn; the closure flag records which. -/

def TurnInv (aiId : String) (base : List Message)
    (s : StoreState) (c : TurnClosure) : Prop :=
  (c.assistantMessageAdded = false ∧ s.messages = base)
  ∨ (c.assistantMessageAdded = true
      ∧ ∃ msg : Message, msg.id = aiId ∧ msg.sender = "assistant"
          ∧ s.messages = base ++ [msg])

theorem applyCbEvent_inv (aiId : String) (wsId : Option String) (ts : String)
    (base : List Message) (hfresh : ∀ m ∈ base, m.id ≠ aiId)
    (acc : StoreState × TurnClosure × List Effect) (e : CbEvent)
    (hp : TurnInv aiId base acc.1 acc.2.1) :
    TurnInv aiId base (applyCbEvent aiId wsId ts acc e).1
      (applyCbEvent aiId wsId ts acc e).2.1 := by
  obtain ⟨s, c, effs⟩ := acc
  cases e with
  | onComplete => exact hp
  | onError err =>
    rcases hp with ⟨hc, hmsg⟩ | ⟨hc, msg, hid, hsender, hmsg⟩
    · simp only [applyCbEvent, applyOnError_not_added aiId err s c hc]
      exact Or.inl ⟨hc, hmsg⟩
    · simp only [applyCbEvent, applyOnError_added aiId err s c hc base msg hmsg hfresh hid]
      exact Or.inr ⟨hc, { msg with content := errorNotice, isStreaming := false, error := true },
        hid, hsender, rfl⟩
  | onMessage m =>
    cases hm : m.type with
    | start =>
      have h := applyOnMessage_start_frame aiId wsId ts m hm s c
      simp only [applyCbEvent]
      rcases hp with ⟨hc, hmsg⟩ | ⟨hc, msg, hid, hsender, hmsg⟩
      · exact Or.inl ⟨by rw [h.2]; exact hc, by rw [h.1]; exact hmsg⟩
      · exact Or.inr ⟨by rw [h.2]; exact hc, msg, hid, hsender, by rw [h.1]; exact hmsg⟩
    | error =>
      simp only [applyCbEvent, applyOnMessage_error_msg aiId wsId ts m hm s c]
      exact hp
    | chunk =>
      rcases hp with ⟨hc, hmsg⟩ | ⟨hc, msg, hid, hsender, hmsg⟩
      · have hfind : s.messages.findIdx? (fun mm => mm.id == aiId) = none := by
          rw [hmsg]; exact findIdx?_fresh aiId base hfresh
        simp only [applyCbEvent, applyOnMessage_chunk_fresh aiId wsId ts m hm s c hc hfind]
        exact Or.inr ⟨rfl, mkAssistantMessage aiId ts, rfl, rfl, by rw [hmsg]⟩
      · simp only [applyCbEvent,
          applyOnMessage_chunk_present aiId wsId ts m hm s c hc base msg hmsg hfresh hid]
        exact Or.inr ⟨hc,
          { msg with
              content := c.aiContent ++ m.content.getD ""
              isStreaming := true },
          hid, hsender, rfl⟩
    | complete =>
      rcases hp with ⟨hc, hmsg⟩ | ⟨hc, msg, hid, hsender, hmsg⟩
      · have hfind : s.messages.findIdx? (fun mm => mm.id == aiId) = none := by
          rw [hmsg]; exact findIdx?_fresh aiId base hfresh
        simp only [applyCbEvent, applyOnMessage_complete_missing aiId wsId ts m hm s c hfind]
        exact Or.inl ⟨hc, hmsg⟩
      · simp only [applyCbEvent,
          applyOnMessage_complete_present aiId wsId ts m hm s c base msg hmsg hfresh hid]
        exact Or.inr ⟨hc,
          { msg with
              content := c.aiContent
              isStreaming := false
              metadata := m.metadata
              confidence := m.confidence
              responseId := m.response_id },
          hid, hsender, rfl⟩

theorem foldl_inv (aiId : String) (wsId : Option String) (ts : String)
    (base : List Message) (hfresh : ∀ m ∈ base, m.id ≠ aiId) :
    ∀ (cbs : List CbEvent) (acc : StoreState × TurnClosure × List Effect),
      TurnInv aiId base acc.1 acc.2.1 →
      TurnInv aiId base (cbs.foldl (applyCbEvent aiId wsId ts) acc).1
        (cbs.foldl (applyCbEvent aiId wsId ts) acc).2.1 := by
  intro cbs
  induction cbs with
  | nil => exact fun acc h => h
  | cons e rest ih =>
    intro acc h
    exact ih _ (applyCbEvent_inv aiId wsId ts base hfresh acc e h)

/-! ## The `assistantMessageAdded` flag -/

theorem added_step (aiId : String) (wsId : Option String) (ts : String)
    (acc : StoreState × TurnClosure × List Effect) (e : CbEvent)
    (h : acc.2.1.assistantMessageAdded = true) :
    (applyCbEvent aiId wsId ts acc e).2.1.assistantMessageAdded = true := by
  obtain ⟨s, c, effs⟩ := acc
  have hc : c.assistantMessageAdded = true := h
  cases e with
  | onComplete => exact hc
  | onError err => exact hc
  | onMessage m =>
    show ((applyOnMessage aiId wsId ts m s c).2.1).assistantMessageAdded = true
    cases hm : m.type with
    | start =>
      rw [(applyOnMessage_start_frame aiId wsId ts m hm s c).2]
      exact hc
    | error =>
      rw [applyOnMessage_error_msg aiId wsId ts m hm s c]
      exact hc
    | chunk =>
      cases hfind : s.messages.findIdx? (fun mm => mm.id == aiId) <;>
        simp [applyOnMessage, hm, hc, hfind]
    | complete =>
      cases hfind : s.messages.findIdx? (fun mm => mm.id == aiId) <;>
        simp [applyOnMessage, hm, hc, hfind]

theorem added_chunk_step (aiId : String) (wsId : Option String) (ts : String)
    (acc : StoreState × TurnClosure × List Effect) (m : SSEMessage)
    (hm : m.type = SSEType.chunk) :
    (applyCbEvent aiId wsId ts acc (CbEvent.onMessage m)).2.1.assistantMessageAdded
      = true := by
  obtain ⟨s, c, effs⟩ := acc
  show ((applyOnMessage aiId wsId ts m s c).2.1).assistantMessageAdded = true
  cases hc : c.assistantMessageAdded with
  | true =>
    cases hfind : s.messages.findIdx? (fun mm => mm.id == aiId) <;>
      simp [applyOnMessage, hm, hc, hfind]
  | false =>
    cases hfind : s.messages.findIdx? (fun mm => mm.id == aiId) with
    | none => simp [applyOnMessage, hm, hc, hfind]
    | some i =>
      cases hfind2 : (s.messages ++ [mkAssistantMessage aiId ts]).findIdx?
          (fun mm => mm.id == aiId) <;>
        simp [applyOnMessage, hm, hc, hfind, hfind2]

theorem added_fold (aiId : String) (wsId : Option String) (ts : String) :
    ∀ (cbs : List CbEvent) (acc : StoreState × TurnClosure × List Effect),
      acc.2.1.assistantMessageAdded = true →
      (cbs.foldl (applyCbEvent aiId wsId ts) acc).2.1.assistantMessageAdded = true := by
  intro cbs
  induction cbs with
  | nil => exact fun acc h => h
  | cons e rest ih => exact fun acc h => ih _ (added_step aiId wsId ts acc e h)

theorem added_of_chunk_mem (aiId : String) (wsId : Option String) (ts : String) :
    ∀ (cbs : List CbEvent) (acc : StoreState × TurnClosure × List Effect),
      (∃ e ∈ cbs, isChunkEvent e = true) →
      (cbs.foldl (applyCbEvent aiId wsId ts) acc).2.1.assistantMessageAdded = true := by
  intro cbs
  induction cbs with
  | nil => rintro acc ⟨e, he, -⟩; cases he
  | cons e rest ih =>
    rintro acc ⟨e', he', hchunk⟩
    rcases List.mem_cons.1 he' with rfl | hmem
    · cases e' with
      | onMessage m =>
        have hm : m.type = SSEType.chunk := by
          simpa [isChunkEvent] using hchunk
        exact added_fold aiId wsId ts rest _ (added_chunk_step aiId wsId ts acc m hm)
      | onError err => simp [isChunkEvent] at hchunk
      | onComplete => simp [isChunkEvent] at hchunk
    · exact ih _ ⟨e', hmem, hchunk⟩

/-! ## Event lists without chunks leave the transcript alone -/

theorem step_no_chunk (aiId : String) (wsId : Option String) (ts : String)
    (s : StoreState) (c : TurnClosure) (effs : List Effect) (e : CbEvent)
    (he : isChunkEvent e = false) (hc : c.assistantMessageAdded = false)
    (hfresh : ∀ m ∈ s.messages, m.id ≠ aiId) :
    (applyCbEvent aiId wsId ts (s, c, effs) e).1.messages = s.messages
    ∧ (applyCbEvent aiId wsId ts (s, c, effs) e).2.1.assistantMessageAdded = false := by
  cases e with
  | onComplete => exact ⟨rfl, hc⟩
  | onError err =>
    constructor
    · show ((applyOnError aiId err s c).1).messages = s.messages
      rw [applyOnError_not_added aiId err s c hc]
    · exact hc
  | onMessage m =>
    have hmain : applyCbEvent aiId wsId ts (s, c, effs) (CbEvent.onMessage m)
        = ((applyOnMessage aiId wsId ts m s c).1,
           (applyOnMessage aiId wsId ts m s c).2.1,
           effs ++ (applyOnMessage aiId wsId ts m s c).2.2) := rfl
    rw [hmain]
    cases hm : m.type with
    | start =>
      have h := applyOnMessage_start_frame aiId wsId ts m hm s c
      exact ⟨h.1, by rw [h.2]; exact hc⟩
    | error =>
      rw [applyOnMessage_error_msg aiId wsId ts m hm s c]
      exact ⟨rfl, hc⟩
    | chunk => simp [isChunkEvent, hm] at he
    | complete =>
      have hfind : s.messages.findIdx? (fun mm => mm.id == aiId) = none :=
        findIdx?_fresh aiId s.messages hfresh
      rw [applyOnMessage_complete_missing aiId wsId ts m hm s c hfind]
      exact ⟨rfl, hc⟩

theorem fold_no_chunk (aiId : String) (wsId : Option String) (ts : String) :
    ∀ (cbs : List CbEvent) (s : StoreState) (c : TurnClosure) (effs : List Effect),
      (∀ e ∈ cbs, isChunkEvent e = false) →
      c.assistantMessageAdded = false →
      (∀ m ∈ s.messages, m.id ≠ aiId) →
      (cbs.foldl (applyCbEvent aiId wsId ts) (s, c, effs)).1.messages = s.messages
      ∧ (cbs.foldl (applyCbEvent aiId wsId ts)
          (s, c, effs)).2.1.assistantMessageAdded = false := by
  intro cbs
  induction cbs with
  | nil => exact fun s c effs _ hc _ => ⟨rfl, hc⟩
  | cons e rest ih =>
    intro s c effs hne hc hfresh
    have hstep := step_no_chunk aiId wsId ts s c effs e
      (hne e (List.mem_cons_self e rest)) hc hfresh
    rcases hacc : applyCbEvent aiId wsId ts (s, c, effs) e with ⟨s', c', effs'⟩
    rw [hacc] at hstep
    have hfresh' : ∀ m ∈ s'.messages, m.id ≠ aiId := by
      rw [hstep.1]; exact hfresh
    have hrest := ih s' c' effs'
      (fun x hx => hne x (List.mem_cons_of_mem e hx)) hstep.2 hfresh'
    simp only [List.foldl_cons, hacc]
    exact ⟨by rw [hrest.1, hstep.1], hrest.2⟩

/-! ## Claim theorems -/

/-- Unfolding of `handleSendMessage` past its mutual-exclusion guard. -/
theorem handleSendMessage_run (q : String) (ids : TurnIds)
    (convCreate : Option Conversation) (parse : String → Option SSEMessage)
    (t : Transport) (s0 : StoreState) (h : s0.isProcessing = false) :
    handleSendMessage q ids convCreate parse t s0
      = runTurn ids s0.currentWorkspaceId
          { s0 with
            currentConversationId := (creationStep q convCreate s0).1
            messages := s0.messages ++ [userMessageObj ids.userMessageId q ids.timestamp]
            isProcessing := true }
          (connectWithFetch parse t).1 (connectWithFetch parse t).2
          ((creationStep q convCreate s0).2
            ++ [Effect.connectTo q (creationStep q convCreate s0).1
                  s0.currentWorkspaceId]) := by
  unfold handleSendMessage
  rw [if_neg (by simp [h])]

/-- Folding a callback list that ends in an `onComplete` invocation leaves
the processing flag cleared, whatever came before. -/
theorem run_ends_onComplete (aiId : String) (wsId : Option String) (ts : String)
    (cbs : List CbEvent) (acc : StoreState × TurnClosure × List Effect) :
    ((cbs ++ [CbEvent.onComplete]).foldl
      (applyCbEvent aiId wsId ts) acc).1.isProcessing = false := by
  rw [List.foldl_append]
  rfl

/-- A rejected connection with no chunk delivered leaves the mid-turn
transcript untouched and clears the processing flag. -/
theorem runTurn_threw_no_chunk (ids : TurnIds) (wsId : Option String)
    (s2 : StoreState) (cbs : List CbEvent) (effs2 : List Effect)
    (hnochunk : ∀ e ∈ cbs, isChunkEvent e = false)
    (hfresh : ∀ m ∈ s2.messages, m.id ≠ ids.aiMessageId) :
    (runTurn ids wsId s2 cbs true effs2).1.messages = s2.messages
    ∧ (runTurn ids wsId s2 cbs true effs2).1.isProcessing = false := by
  have hfold := fold_no_chunk ids.aiMessageId wsId ids.timestamp cbs s2
    ⟨"", false⟩ [] hnochunk rfl hfresh
  simp only [runTurn, runCbEvents]
  rw [hfold.2]
  exact ⟨hfold.1, rfl⟩

/-- A rejected connection after at least one chunk removes the turn's
assistant message again: the transcript reverts to the mid-turn base and
the processing flag is cleared. -/
theorem runTurn_threw_after_chunk (ids : TurnIds) (wsId : Option String)
    (s2 : StoreState) (cbs : List CbEvent) (effs2 : List Effect)
    (hchunk : ∃ e ∈ cbs, isChunkEvent e = true)
    (hfresh : ∀ m ∈ s2.messages, m.id ≠ ids.aiMessageId) :
    (runTurn ids wsId s2 cbs true effs2).1.messages = s2.messages
    ∧ (runTurn ids wsId s2 cbs true effs2).1.isProcessing = false := by
  have hadded := added_of_chunk_mem ids.aiMessageId wsId ids.timestamp cbs
    (s2, ⟨"", false⟩, []) hchunk
  have hinv := foldl_inv ids.aiMessageId wsId ids.timestamp s2.messages hfresh cbs
    (s2, ⟨"", false⟩, []) (Or.inl ⟨rfl, rfl⟩)
  rcases hinv with ⟨hc, -⟩ | ⟨-, msg, hid, -, hmsg⟩
  · rw [hadded] at hc
    cases hc
  · have hfilter : (s2.messages ++ [msg]).filter
        (fun m => m.id != ids.aiMessageId) = s2.messages := by
      rw [List.filter_append]
      have h1 : s2.messages.filter (fun m => m.id != ids.aiMessageId) = s2.messages :=
        List.filter_eq_self.mpr (fun a ha => by simp [hfresh a ha])
      have h2 : [msg].filter (fun m => m.id != ids.aiMessageId) = [] := by
        simp [hid]
      rw [h1, h2, List.append_nil]
    simp only [runTurn, runCbEvents]
    rw [hadded]
    refine ⟨?_, rfl⟩
    show (List.foldl (applyCbEvent ids.aiMessageId wsId ids.timestamp)
        (s2, ⟨"", false⟩, []) cbs).1.messages.filter
          (fun m => m.id != ids.aiMessageId) = s2.messages
    rw [hmsg, hfilter]

/-- C4: every execution of a turn that actually starts (the guard was not
tripped) ends with isProcessing = false, over every transport outcome:
explicit complete, explicit error event, transport failure before or after
chunks, and the end-of-body fallback. -/
theorem c4_terminal_paths_clear_isProcessing (q : String) (ids : TurnIds)
    (convCreate : Option Conversation) (parse : String → Option SSEMessage)
    (t : Transport) (s0 : StoreState) (h : s0.isProcessing = false) :
    (handleSendMessage q ids convCreate parse t s0).1.isProcessing = false := by
  rw [handleSendMessage_run q ids convCreate parse t s0 h]
  cases t with
  | httpError status =>
    simp only [connectWithFetch, runTurn, runCbEvents]
    split <;> rfl
  | stream chunks readFails =>
    cases readFails with
    | true =>
      simp only [connectWithFetch, runTurn, runCbEvents, if_true]
      split <;> rfl
    | false =>
      simp only [connectWithFetch, runTurn, runCbEvents, Bool.false_eq_true, if_false]
      exact run_ends_onComplete ids.aiMessageId s0.currentWorkspaceId ids.timestamp
        (streamEvents parse chunks) _

/-- Witness for C4: the concrete scenario run of C1 ends unprocessed. -/
theorem c4_witness :
    baseState.isProcessing = false
    ∧ (handleSendMessage "Should we enter APAC?" demoIds none demoParse
        (Transport.stream ["data: S\n\ndata: A\n\n", "data: B\n\n", "data: K\n\n"] false)
        baseState).1.isProcessing = false :=
  ⟨rfl, c4_terminal_paths_clear_isProcessing "Should we enter APAC?" demoIds none demoParse
    (Transport.stream ["data: S\n\ndata: A\n\n", "data: B\n\n", "data: K\n\n"] false)
    baseState rfl⟩

/-- C8: when the transport fails (the connect call rejects) and no chunk
event was delivered, the transcript afterwards is exactly the prior
transcript plus the user message — no assistant message, nothing else
added, removed or modified — and isProcessing is false. -/
theorem c8_failure_before_chunk_leaves_user_message_only (q : String)
    (ids : TurnIds) (convCreate : Option Conversation)
    (parse : String → Option SSEMessage) (t : Transport) (s0 : StoreState)
    (cbs : List CbEvent)
    (h : s0.isProcessing = false)
    (hconn : connectWithFetch parse t = (cbs, true))
    (hnochunk : ∀ e ∈ cbs, isChunkEvent e = false)
    (huser : ids.userMessageId ≠ ids.aiMessageId)
    (hfresh : ∀ m ∈ s0.messages, m.id ≠ ids.aiMessageId) :
    (handleSendMessage q ids convCreate parse t s0).1.messages
      = s0.messages ++ [userMessageObj ids.userMessageId q ids.timestamp]
    ∧ (handleSendMessage q ids convCreate parse t s0).1.isProcessing = false := by
  have hfreshB : ∀ m ∈ s0.messages ++ [userMessageObj ids.userMessageId q ids.timestamp],
      m.id ≠ ids.aiMessageId := by
    intro m hm
    rcases List.mem_append.1 hm with hm | hm
    · exact hfresh m hm
    · rcases List.mem_singleton.1 hm with rfl
      exact huser
  rw [handleSendMessage_run q ids convCreate parse t s0 h, hconn]
  exact runTurn_threw_no_chunk ids s0.currentWorkspaceId _ cbs _ hnochunk hfreshB

/-! ## Claim theorems (easy block) -/

/-- C9: the subset written to durable storage is exactly
{theme, isAuthenticated, user, workspaces, currentWorkspaceId}; messages,
conversations, currentConversationId and isProcessing (and the loading
flags) never reach the persisted snapshot. -/
theorem c9_partialize_exact_subset (s : StoreState) (ms : List Message)
    (cs : List Conversation) (cid : Option String) (ip lw lc : Bool) :
    partialize { s with
        messages := ms
        conversations := cs
        currentConversationId := cid
        isProcessing := ip
        isLoadingWorkspaces := lw
        isLoadingConversations := lc } = partialize s
    ∧ partialize s =
      { theme := s.theme
        isAuthenticated := s.isAuthenticated
        user := s.user
        workspaces := s.workspaces
        currentWorkspaceId := s.currentWorkspaceId } :=
  ⟨rfl, rfl⟩

/-- C10: logout produces, in one snapshot replacement, a state with
isAuthenticated=false, user=null, isProcessing=false, empty messages,
workspaces and conversations, cleared current ids, and the theme preserved
— whether or not the server-side logout call failed. -/
theorem c10_logout_resets_and_preserves_theme (apiFails : Bool) (s : StoreState) :
    logout apiFails s =
      { s with
        isAuthenticated := false
        user := none
        isProcessing := false
        messages := []
        workspaces := []
        conversations := []
        currentConversationId := none
        currentWorkspaceId := none }
    ∧ (logout apiFails s).theme = s.theme :=
  ⟨rfl, rfl⟩

/-- C5: with isProcessing=true, handleSendMessage is a no-op: the state is
returned unchanged and no external call (in particular no stream
connection) is made. -/
theorem c5_processing_guard_no_op (q : String) (ids : TurnIds)
    (convCreate : Option Conversation) (parse : String → Option SSEMessage)
    (t : Transport) (s : StoreState) (h : s.isProcessing = true) :
    handleSendMessage q ids convCreate parse t s = (s, []) := by
  unfold handleSendMessage
  simp [h]

/-- Witness for C5 at a concrete busy state. -/
theorem c5_witness :
    { baseState with isProcessing := true }.isProcessing = true
    ∧ handleSendMessage "Q" demoIds none demoParse (Transport.stream [] false)
        { baseState with isProcessing := true }
      = ({ baseState with isProcessing := true }, []) :=
  ⟨rfl, c5_processing_guard_no_op "Q" demoIds none demoParse
    (Transport.stream [] false) { baseState with isProcessing := true } rfl⟩

/-- C1 (code bug): the spec's own scenario — chunks "Yes, " then
"with caveats." followed by complete — ends with assistant content
"with caveats.": the first chunk's content is dropped, because the chunk
handler's findIndex runs on the stale `currentMessages` captured before
the assistant message was inserted and returns early on the first chunk. -/
theorem c1_first_chunk_dropped :
    ((handleSendMessage "Should we enter APAC?" demoIds none demoParse
        (Transport.stream ["data: S\n\ndata: A\n\n", "data: B\n\n", "data: K\n\n"] false)
        baseState).1.messages.map Message.content)
      = ["Should we enter APAC?", "with caveats."]
    ∧ "with caveats." ≠ "Yes, " ++ "with caveats." := by
  exact ⟨by decide, by decide⟩

/-- C3 counterexample: the same stream's `complete` event carries
conversation_id "conv-42", yet the store's active conversation id stays
"conv-1" — only a `start` event is ever used to adopt a server id. -/
theorem c3_counterexample_complete_id_not_adopted :
    demoParse "K" = some { type := SSEType.complete, conversation_id := some "conv-42" }
    ∧ ((handleSendMessage "Should we enter APAC?" demoIds none demoParse
        (Transport.stream ["data: S\n\ndata: A\n\n", "data: B\n\n", "data: K\n\n"] false)
        baseState).1.currentConversationId) = some "conv-1"
    ∧ (some "conv-1" : Option String) ≠ some "conv-42" := by
  exact ⟨by decide, by decide, by decide⟩

/-- C2 counterexample: one chunk is delivered (an assistant message is
created), then the transport read fails; afterwards the transcript holds
only the user message — the assistant message was removed by the catch
handler, not kept with error=true. -/
theorem c2_counterexample_transport_failure_removes_message :
    connectWithFetch demoParse (Transport.stream ["data: A"] true)
      = ([CbEvent.onMessage { type := SSEType.chunk, content := some "Yes, " },
          CbEvent.onError "network read failed"], true)
    ∧ ((handleSendMessage "Q" demoIds none demoParse
          (Transport.stream ["data: A"] true) baseState).1.messages.map Message.sender)
        = ["user"]
    ∧ (handleSendMessage "Q" demoIds none demoParse
          (Transport.stream ["data: A"] true) baseState).1.isProcessing = false := by
  exact ⟨by decide, by decide, by decide⟩

/-- C7 counterexample: a stream whose first read chunk is a `complete`
frame and whose second read chunk is a further `chunk` frame: the client
keeps reading (the chunk message is still delivered) and onComplete fires
twice — once at the complete frame and once at end-of-body. -/
theorem c7_counterexample_onComplete_twice :
    (connectWithFetch demoParse (Transport.stream ["data: K", "data: A"] false)).1
      = [CbEvent.onMessage { type := SSEType.complete, conversation_id := some "conv-42" },
         CbEvent.onComplete,
         CbEvent.onMessage { type := SSEType.chunk, content := some "Yes, " },
         CbEvent.onComplete]
    ∧ ((connectWithFetch demoParse (Transport.stream ["data: K", "data: A"] false)).1.count
         CbEvent.onComplete) = 2 := by
  exact ⟨by decide, by decide⟩

/-- C2 (amended): after at least one chunk, the two failure causes behave
differently.  An `error` event (handled by `onError`) keeps the assistant
message in the transcript — same length, same position, same id — marked
error=true, isStreaming=false, content replaced by the failure notice, with
isProcessing=false; but a transport failure (a rejected connect promise)
ends with the catch handler removing the assistant message: the transcript
reverts to the user message alone, with isProcessing=false. -/
theorem c2_amended_error_event_persists_transport_failure_removes :
    (∀ (aiId err : String) (s : StoreState) (c : TurnClosure) (i : Nat),
      c.assistantMessageAdded = true →
      s.messages.findIdx? (fun mm => mm.id == aiId) = some i →
      (applyOnError aiId err s c).1.messages.length = s.messages.length
      ∧ ((applyOnError aiId err s c).1.messages.getD i
          (mkAssistantMessage aiId "")).id = aiId
      ∧ ((applyOnError aiId err s c).1.messages.getD i
          (mkAssistantMessage aiId "")).error = true
      ∧ ((applyOnError aiId err s c).1.messages.getD i
          (mkAssistantMessage aiId "")).isStreaming = false
      ∧ ((applyOnError aiId err s c).1.messages.getD i
          (mkAssistantMessage aiId "")).content = errorNotice
      ∧ (applyOnError aiId err s c).1.isProcessing = false)
    ∧ (∀ (q : String) (ids : TurnIds) (convCreate : Option Conversation)
        (parse : String → Option SSEMessage) (t : Transport) (s0 : StoreState)
        (cbs : List CbEvent),
      s0.isProcessing = false →
      connectWithFetch parse t = (cbs, true) →
      (∃ e ∈ cbs, isChunkEvent e = true) →
      ids.userMessageId ≠ ids.aiMessageId →
      (∀ m ∈ s0.messages, m.id ≠ ids.aiMessageId) →
      (handleSendMessage q ids convCreate parse t s0).1.messages
        = s0.messages ++ [userMessageObj ids.userMessageId q ids.timestamp]
      ∧ (handleSendMessage q ids convCreate parse t s0).1.isProcessing = false) := by
  constructor
  · intro aiId err s c i hc hfind
    have hlt : i < s.messages.length :=
      (List.findIdx?_eq_some_iff_findIdx_eq.1 hfind).1
    obtain ⟨hlt2, hp, -⟩ := List.findIdx?_eq_some_iff_getElem.1 hfind
    have hgetD : (s.messages.set i
        { s.messages.getD i (mkAssistantMessage aiId "") with
          content := errorNotice
          isStreaming := false
          error := true }).getD i (mkAssistantMessage aiId "")
        = { s.messages.getD i (mkAssistantMessage aiId "") with
            content := errorNotice
            isStreaming := false
            error := true } := by
      rw [List.getD_eq_getElem?_getD, List.getElem?_set_self hlt]
      rfl
    have hid : (s.messages.getD i (mkAssistantMessage aiId "")).id = aiId := by
      rw [List.getD_eq_getElem?_getD, List.getElem?_eq_getElem hlt]
      simpa using hp
    have happ : applyOnError aiId err s c
        = ({ s with
              messages := s.messages.set i
                { s.messages.getD i (mkAssistantMessage aiId "") with
                  content := errorNotice
                  isStreaming := false
                  error := true }
              isProcessing := false },
           [Effect.toastError err]) := by
      simp only [applyOnError, hc, if_true, hfind]
    simp only [happ]
    refine ⟨by simp, ?_, ?_, ?_, ?_, trivial⟩
    · rw [hgetD]
      exact hid
    · rw [hgetD]
    · rw [hgetD]
    · rw [hgetD]
  · intro q ids convCreate parse t s0 cbs h hconn hchunk huser hfresh
    have hfreshB : ∀ m ∈ s0.messages ++ [userMessageObj ids.userMessageId q ids.timestamp],
        m.id ≠ ids.aiMessageId := by
      intro m hm
      rcases List.mem_append.1 hm with hm | hm
      · exact hfresh m hm
      · rcases List.mem_singleton.1 hm with rfl
        exact huser
    rw [handleSendMessage_run q ids convCreate parse t s0 h, hconn]
    exact runTurn_threw_after_chunk ids s0.currentWorkspaceId _ cbs _ hchunk hfreshB

/-- Witness for the amended C2 at concrete inputs: an error event on a
streaming transcript keeps the assistant message marked failed, and a
transport failure after one chunk leaves only the user message. -/
theorem c2_amended_witness :
    ((applyOnError "ai-1" "boom"
        { baseState with
            messages := [userMessageObj "user-1" "Q" "t0", mkAssistantMessage "ai-1" "t0"] }
        { aiContent := "Yes, ", assistantMessageAdded := true }).1.messages.getD 1
      (mkAssistantMessage "ai-1" "")).error = true
    ∧ (handleSendMessage "Q" demoIds none demoParse (Transport.stream ["data: A"] true)
        baseState).1.messages
      = baseState.messages ++ [userMessageObj "user-1" "Q" "t0"] := by
  constructor
  · exact (c2_amended_error_event_persists_transport_failure_removes.1 "ai-1" "boom"
      { baseState with
          messages := [userMessageObj "user-1" "Q" "t0", mkAssistantMessage "ai-1" "t0"] }
      { aiContent := "Yes, ", assistantMessageAdded := true } 1 rfl (by decide)).2.2.1
  · exact (c2_amended_error_event_persists_transport_failure_removes.2 "Q" demoIds none
      demoParse (Transport.stream ["data: A"] true) baseState
      [CbEvent.onMessage { type := SSEType.chunk, content := some "Yes, " },
       CbEvent.onError "network read failed"]
      rfl (by decide)
      ⟨CbEvent.onMessage { type := SSEType.chunk, content := some "Yes, " },
        by decide, by decide⟩
      (by decide) (by decide)).1

/-- C3 (amended): processing a `complete` event never changes the active
conversation id (whatever id the event carries) and emits exactly one
conversation-list refresh; only a `start` event carrying a conversation id
adopts it. -/
theorem c3_amended_complete_keeps_conversation_id (aiId : String)
    (wsId : Option String) (ts : String) (m : SSEMessage) (s : StoreState)
    (c : TurnClosure) (hm : m.type = SSEType.complete) :
    (applyOnMessage aiId wsId ts m s c).1.currentConversationId
      = s.currentConversationId
    ∧ (applyOnMessage aiId wsId ts m s c).2.2 = [Effect.fetchConversations wsId]
    ∧ (∀ (m2 : SSEMessage) (cid : String), m2.type = SSEType.start →
        m2.conversation_id = some cid →
        (applyOnMessage aiId wsId ts m2 s c).1.currentConversationId = some cid) := by
  refine ⟨?_, ?_, ?_⟩
  · cases hfind : s.messages.findIdx? (fun mm => mm.id == aiId) <;>
      simp [applyOnMessage, hm, hfind]
  · cases hfind : s.messages.findIdx? (fun mm => mm.id == aiId) <;>
      simp [applyOnMessage, hm, hfind]
  · intro m2 cid hm2 hcid
    simp [applyOnMessage, hm2, hcid]

/-- Witness for the amended C3: a concrete complete event carrying
conv-42 leaves the active id untouched. -/
theorem c3_amended_witness :
    (applyOnMessage "ai-1" none "t0"
        { type := SSEType.complete, conversation_id := some "conv-42" } baseState
        { aiContent := "", assistantMessageAdded := false }).1.currentConversationId
      = baseState.currentConversationId :=
  (c3_amended_complete_keeps_conversation_id "ai-1" none "t0"
    { type := SSEType.complete, conversation_id := some "conv-42" } baseState
    { aiContent := "", assistantMessageAdded := false } rfl).1

/-! ## C6: resilience of the framing loop -/

theorem jsStartsWith_data (bad : String) :
    jsStartsWith "data: " ("data: " ++ bad) = true := by
  unfold jsStartsWith
  rw [String.data_append]
  exact List.isPrefixOf_iff_prefix.mpr (List.prefix_append _ _)

theorem jsDrop_data (bad : String) : jsDrop 6 ("data: " ++ bad) = bad := by
  unfold jsDrop
  rw [String.data_append, show (6 : Nat) = "data: ".data.length from rfl,
    List.drop_left]

/-- A data-marker line whose payload fails to parse contributes nothing:
the catch block only logs and the loop continues. -/
theorem processLines_cons_skip (parse : String → Option SSEMessage)
    (line : String) (rest : List String)
    (h : jsStartsWith "data: " line = true)
    (hparse : parse (jsDrop 6 line) = none) :
    processLines parse (line :: rest) = processLines parse rest := by
  simp only [processLines, h, if_true, hparse]

/-- A line without the data marker is ignored. -/
theorem processLines_cons_nodata (parse : String → Option SSEMessage)
    (line : String) (rest : List String)
    (h : jsStartsWith "data: " line = false) :
    processLines parse (line :: rest) = processLines parse rest := by
  simp only [processLines, h, Bool.false_eq_true, if_false]

/-- C6: a malformed frame (a data-marker line whose remainder does not
parse) anywhere in the line sequence is skipped without any callback
invocation and without affecting the frames around it: the emitted
callback sequence (and the early-break flag) is exactly that of the stream
without the malformed frame, so chunks before and after it are delivered
in order and nothing aborts. -/
theorem c6_malformed_frame_skipped (parse : String → Option SSEMessage)
    (bad : String) (hbad : parse bad = none) (pre post : List String) :
    processLines parse (pre ++ ("data: " ++ bad) :: post)
      = processLines parse (pre ++ post) := by
  induction pre with
  | nil =>
    simp only [List.nil_append]
    exact processLines_cons_skip parse ("data: " ++ bad) post (jsStartsWith_data bad)
      (by rw [jsDrop_data bad]; exact hbad)
  | cons l pre ih =>
    simp only [List.cons_append]
    cases hsw : jsStartsWith "data: " l with
    | false =>
      rw [processLines_cons_nodata parse l _ hsw, processLines_cons_nodata parse l _ hsw,
        ih]
    | true =>
      cases hparse : parse (jsDrop 6 l) with
      | none =>
        rw [processLines_cons_skip parse l _ hsw hparse,
          processLines_cons_skip parse l _ hsw hparse, ih]
      | some m =>
        by_cases herr : m.type = SSEType.error
        · simp only [processLines, hsw, if_true, hparse, herr]
        · by_cases hcomp : m.type = SSEType.complete
          · simp only [processLines, hsw, if_true, hparse, herr, hcomp, if_false]
          · simp only [processLines, hsw, if_true, hparse, herr, hcomp, if_false]
            rw [ih]

/-- Witness for C6: the spec's scenario — a malformed frame between two
valid chunk frames; both chunks are still delivered, in order. -/
theorem c6_witness :
    demoParse "oops" = none
    ∧ processLines demoParse (["data: A"] ++ ("data: " ++ "oops") :: ["data: B"])
        = processLines demoParse (["data: A"] ++ ["data: B"])
    ∧ processLines demoParse (["data: A"] ++ ["data: B"])
        = ([CbEvent.onMessage { type := SSEType.chunk, content := some "Yes, " },
            CbEvent.onMessage { type := SSEType.chunk, content := some "with caveats." }],
           false) :=
  ⟨rfl, c6_malformed_frame_skipped demoParse "oops" rfl ["data: A"] ["data: B"],
    by decide⟩

/-! ## C7 amended: the reader runs to end-of-body -/

/-- C7 (amended): an observed `complete`/`error` frame only breaks out of
the current read chunk's line loop, not out of the read loop: the events
of every later read chunk are still emitted.  `onComplete` fires once per
explicit complete frame plus once at end-of-body — so a stream containing
an explicit complete frame invokes it twice — and exactly once when the
body ends without any complete frame having been emitted. -/
theorem c7_amended_reader_runs_to_end :
    (∀ (parse : String → Option SSEMessage) (c : String) (cs : List String)
        (readFails : Bool),
      (connectWithFetch parse (Transport.stream (c :: cs) readFails)).1
        = (chunkEvents parse c).1
            ++ (connectWithFetch parse (Transport.stream cs readFails)).1)
    ∧ (∀ (parse : String → Option SSEMessage) (chunks : List String),
      ((connectWithFetch parse (Transport.stream chunks false)).1.count
          CbEvent.onComplete)
        = ((streamEvents parse chunks).count CbEvent.onComplete) + 1)
    ∧ (∀ (parse : String → Option SSEMessage) (chunks : List String),
      (∀ c ∈ chunks, ((chunkEvents parse c).1.count CbEvent.onComplete) = 0) →
      ((connectWithFetch parse (Transport.stream chunks false)).1.count
          CbEvent.onComplete) = 1) := by
  have h2 : ∀ (parse : String → Option SSEMessage) (chunks : List String),
      ((connectWithFetch parse (Transport.stream chunks false)).1.count
          CbEvent.onComplete)
        = ((streamEvents parse chunks).count CbEvent.onComplete) + 1 := by
    intro parse chunks
    simp [connectWithFetch, List.count_append]
  refine ⟨?_, h2, ?_⟩
  · intro parse c cs readFails
    cases readFails <;>
      simp [connectWithFetch, streamEvents, List.append_assoc]
  · intro parse chunks h
    have hz : ∀ (l : List String),
        (∀ c ∈ l, ((chunkEvents parse c).1.count CbEvent.onComplete) = 0) →
        (streamEvents parse l).count CbEvent.onComplete = 0 := by
      intro l
      induction l with
      | nil => intro _; rfl
      | cons c cs ih =>
        intro hl
        rw [streamEvents, List.count_append, hl c (List.mem_cons_self c cs),
          ih (fun x hx => hl x (List.mem_cons_of_mem c hx))]
    rw [h2 parse chunks, hz chunks h]

/-- Witness for the amended C7: a body with one read chunk holding only
start and chunk frames yields exactly one onComplete, at end-of-body. -/
theorem c7_amended_witness :
    ((connectWithFetch demoParse
        (Transport.stream ["data: S\n\ndata: A\n\n"] false)).1.count
      CbEvent.onComplete) = 1 :=
  c7_amended_reader_runs_to_end.2.2 demoParse ["data: S\n\ndata: A\n\n"] (by decide)

/-- Witness for C8: a start frame arrives, then the read fails; the
transcript gains only the user message and processing is cleared. -/
theorem c8_witness :
    (handleSendMessage "Q" demoIds none demoParse
        (Transport.stream ["data: S\n\n"] true) baseState).1.messages
      = baseState.messages ++ [userMessageObj "user-1" "Q" "t0"]
    ∧ (handleSendMessage "Q" demoIds none demoParse
        (Transport.stream ["data: S\n\n"] true) baseState).1.isProcessing = false :=
  c8_failure_before_chunk_leaves_user_message_only "Q" demoIds none demoParse
    (Transport.stream ["data: S\n\n"] true) baseState
    [CbEvent.onMessage { type := SSEType.start, model := some "m1" },
     CbEvent.onError "network read failed"]
    rfl (by decide) (by decide) (by decide) (by decide)

end AdvisoryChat
